import Mathlib

/-
  Verification of the buzzline consumer (src/consumers/project_consumer_valenti.py).

  The consumer reads raw text messages, parses each with json.loads, tallies
  counts in the global nested defaultdict season_counts, and redraws a stacked
  bar chart.  This file embeds the aggregation and rendering logic shallowly:

  * Json models the values produced by json.loads.  Arrays and objects are
    flattened into cons-chains (arrCons / objCons) so the type is a plain
    inductive; JSON numbers are modelled as integers (the payloads and keys
    relevant here are strings and integer literals).
  * CountTable models season_counts as an association list in insertion order,
    which matches Python dict ordering.  The defaultdict semantics are made
    explicit: increment models season_counts[season][author] += 1 and vivify
    models the key insertion performed by defaultdict.__getitem__ when
    season_counts[season] is evaluated for a missing key.
  * Python dict keys must be hashable: using a list or dict as a key raises
    TypeError.  Json.hashable records which modelled values are hashable.
  * update_chart is modelled as a pure function from the table to either a
    render description or an error; the only modelled exception source is
    sorted(season_counts.keys(), key=int), which raises when some key is not
    readable as an integer.
  * process_message consumes the outcome of json.loads (RawParse) and returns
    the new table together with which branch of the function ran.
  * main is modelled by the list of events it emits: the messages processed by
    the for-loop, the logging of the except branches, and the consumer.close()
    call in the finally block.
-/

namespace Buzzline

/-- Values returned by json.loads.  Arrays and objects are encoded as
cons-chains so that the inductive is non-nested; numbers are modelled as
integers. -/
inductive Json where
  | null : Json
  | bool : Bool → Json
  | num : Int → Json
  | str : String → Json
  | arrNil : Json
  | arrCons : Json → Json → Json
  | objNil : Json
  | objCons : String → Json → Json → Json
deriving DecidableEq

/-- Python dict lookup dict.get(key) on a parsed JSON object.  json.loads keeps
the last occurrence of a duplicated key, hence the later bindings win. -/
def jget : Json → String → Option Json
  | .objCons k v rest, key =>
    match jget rest key with
    | some w => some w
    | none => if k = key then some v else none
  | _, _ => none

/-- jget with a default value: models dict.get(key, default). -/
def jgetD (j : Json) (key : String) (dflt : Json) : Json :=
  (jget j key).getD dflt

/-- Whether the parsed value is a Python dict (the isinstance check in
process_message). -/
def Json.isObj : Json → Bool
  | .objNil => true
  | .objCons _ _ _ => true
  | _ => false

/-- Whether the value is hashable in Python, i.e. usable as a dict key.
Lists and dicts are unhashable; using one as a key raises TypeError. -/
def Json.hashable : Json → Bool
  | .arrNil => false
  | .arrCons _ _ => false
  | .objNil => false
  | .objCons _ _ _ => false
  | _ => true

/-- The inner defaultdict(int): author value to count, in insertion order. -/
abbrev Inner := List (Json × Int)

/-- The global season_counts table: season value to inner table, in insertion
order. -/
abbrev CountTable := List (Json × Inner)

/-- Read of the inner dict with default 0, as done by defaultdict(int) and by
season_counts[season].get(author, 0). -/
def innerGetD : Inner → Json → Int
  | [], _ => 0
  | (k, v) :: rest, a => if k = a then v else innerGetD rest a

/-- Read of season_counts at a season key; absent keys read as the empty inner
dict. -/
def tableGet : CountTable → Json → Inner
  | [], _ => []
  | (k, inner) :: rest, s => if k = s then inner else tableGet rest s

/-- The count stored for a (season, author) pair; absent pairs read as 0. -/
def lookupCount (t : CountTable) (s a : Json) : Int :=
  innerGetD (tableGet t s) a

/-- inner[author] += 1 on a defaultdict(int): a missing author key is created
with value 0 and then incremented. A fresh key is appended, matching Python
dict insertion order. -/
def bump : Inner → Json → Inner
  | [], a => [(a, 1)]
  | (k, v) :: rest, a =>
    if k = a then (k, v + 1) :: rest else (k, v) :: bump rest a

/-- season_counts[season][author] += 1 on the nested defaultdict: a missing
season key is created (appended) with an empty inner dict and the inner
increment is applied to it. -/
def increment : CountTable → Json → Json → CountTable
  | [], s, a => [(s, bump [] a)]
  | (k, inner) :: rest, s, a =>
    if k = s then (k, bump inner a) :: rest
    else (k, inner) :: increment rest s a

/-- The key insertion performed by defaultdict.__getitem__ when
season_counts[season] is evaluated: a missing season key is appended with an
empty inner dict, an existing key is left alone.  This is the table mutation
that survives when the subsequent inner access raises TypeError. -/
def vivify : CountTable → Json → CountTable
  | [], s => [(s, [])]
  | (k, inner) :: rest, s =>
    if k = s then (k, inner) :: rest
    else (k, inner) :: vivify rest s

/-- The season keys of the table, in insertion order
(season_counts.keys()). -/
def chartKeys (t : CountTable) : List Json :=
  t.map (fun p => p.1)

/-- sum(season_counts[season].values()). -/
def innerTotal (inner : Inner) : Int :=
  (inner.map (fun p => p.2)).sum

/-- total_messages_per_season for one season. -/
def seasonTotal (t : CountTable) (s : Json) : Int :=
  innerTotal (tableGet t s)

/-- The numeric value of a decimal digit character. -/
def natOfDigits (cs : List Char) : Nat :=
  cs.foldl (fun n c => 10 * n + (c.toNat - 48)) 0

/-- Leading and trailing whitespace removal, as int(str) performs. -/
def stripOuterWs (cs : List Char) : List Char :=
  ((cs.dropWhile Char.isWhitespace).reverse.dropWhile Char.isWhitespace).reverse

/-- Whether cs is a non-empty run of decimal digits. -/
def allDigits (cs : List Char) : Bool :=
  !cs.isEmpty && cs.all Char.isDigit

/-- Python int(s) on a string: optional surrounding whitespace, optional sign,
then decimal digits; anything else raises ValueError, modelled as none.
(The rarely used underscore separators and non-ASCII digits accepted by
Python are not modelled; no key in this development uses them.) -/
def pyStrToInt (s : String) : Option Int :=
  match stripOuterWs s.data with
  | '+' :: ds => if allDigits ds then some ((natOfDigits ds : Nat) : Int) else none
  | '-' :: ds => if allDigits ds then some (-((natOfDigits ds : Nat) : Int)) else none
  | ds => if allDigits ds then some ((natOfDigits ds : Nat) : Int) else none

/-- Python int(key) applied to a dict key, as the sort key in
sorted(season_counts.keys(), key=int).  int of a bool or int succeeds, int of
a non-numeric string or of None raises, modelled as none. -/
def pyIntOfKey : Json → Option Int
  | .str s => pyStrToInt s
  | .num n => some n
  | .bool b => some (if b then 1 else 0)
  | _ => none

/-- The integer sort key of a season key, defined when pyIntOfKey succeeds;
the default is never consulted because update_chart checks all keys first. -/
def intKey (k : Json) : Int :=
  (pyIntOfKey k).getD 0

/-- sorted(keys, key=int): ascending and stable in the integer sort key. -/
def seasonSorted (keys : List Json) : List Json :=
  keys.insertionSort (fun a b => intKey a ≤ intKey b)

/-- The color mapping for authors, in the insertion order of the dict literal
author_colors. -/
def author_colors : List (String × String) :=
  [("Homer", "yellow"), ("Bart", "red"), ("Marge", "blue"),
   ("Lisa", "black"), ("Maggie", "pink")]

/-- Label text color: black for Homer and Maggie, white otherwise. -/
def textColorFor (author : String) : String :=
  if author = "Homer" ∨ author = "Maggie" then "black" else "white"

/-- One ax.bar call: a stacked segment series for one author across the sorted
seasons, with the accumulated bottom offsets. -/
structure BarCall where
  author : String
  color : String
  seasons : List Json
  heights : List Int
  bottoms : List Int
deriving DecidableEq

/-- One ax.text call: the percentage label drawn over a segment with positive
count.  The count and the season total captured here are the two numbers the
code divides; the displayed value is SegLabel.percent. -/
structure SegLabel where
  author : String
  season : Json
  count : Int
  total : Int
  textColor : String
deriving DecidableEq

/-- percentage = (count / total_messages_per_season[season]) * 100, as
computed in update_chart (rational arithmetic; exact at every label the
claims evaluate). -/
def SegLabel.percent (l : SegLabel) : ℚ :=
  ((l.count : ℚ) / (l.total : ℚ)) * 100

/-- The value printed by the percentage format with one decimal place,
represented in tenths of a percent: 750 stands for the label text 75.0%. -/
def formatTenths (q : ℚ) : Int :=
  round (q * 10)

/-- Everything update_chart draws: the sorted season axis, the ax.bar calls in
author_colors order, and the ax.text percentage labels. -/
structure RenderOutput where
  sorted_seasons : List Json
  bars : List BarCall
  labels : List SegLabel
deriving DecidableEq

/-- The percentage labels emitted for one author: one label per season with
count > 0, dividing by that season's total. -/
def authorLabels (t : CountTable) (author : String) (seasons : List Json) :
    List SegLabel :=
  seasons.filterMap (fun s =>
    if 0 < innerGetD (tableGet t s) (Json.str author) then
      some ⟨author, s, innerGetD (tableGet t s) (Json.str author),
            seasonTotal t s, textColorFor author⟩
    else none)

/-- The for-loop of update_chart over author_colors.items(): for each author a
bar series is drawn with the current bottom offsets, its labels are emitted,
and the bottoms accumulate the heights. -/
def drawBars (t : CountTable) (seasons : List Json) :
    List (String × String) → List Int → List BarCall × List SegLabel
  | [], _ => ([], [])
  | (author, color) :: rest, bottoms =>
    let heights := seasons.map (fun s => innerGetD (tableGet t s) (Json.str author))
    let labels := authorLabels t author seasons
    let next := drawBars t seasons rest
      ((bottoms.zip heights).map (fun p => p.1 + p.2))
    (⟨author, color, seasons, heights, bottoms⟩ :: next.1, labels ++ next.2)

/-- The chart drawn from a table whose keys all sort: the season axis in
sorted order, and the bar and label series accumulated over author_colors
starting from all-zero bottoms. -/
def renderFrom (t : CountTable) : RenderOutput :=
  ⟨seasonSorted (chartKeys t),
   (drawBars t (seasonSorted (chartKeys t)) author_colors
     (List.replicate (seasonSorted (chartKeys t)).length 0)).1,
   (drawBars t (seasonSorted (chartKeys t)) author_colors
     (List.replicate (seasonSorted (chartKeys t)).length 0)).2⟩

/-- update_chart as a pure function of the table.  sorted(keys, key=int)
raises ValueError or TypeError when some season key is not readable as an
integer; that exception propagates out of update_chart, modelled as the error
case.  Otherwise the chart is redrawn from the sorted keys. -/
def update_chart (t : CountTable) : Except Unit RenderOutput :=
  if (chartKeys t).all (fun k => (pyIntOfKey k).isSome) then
    Except.ok (renderFrom t)
  else Except.error ()

/-- The outcome of json.loads on the raw message text: either a
json.JSONDecodeError or a parsed value.  json.loads itself is library code,
modelled by its result. -/
inductive RawParse where
  | decodeError : RawParse
  | value : Json → RawParse
deriving DecidableEq

/-- Which branch of process_message ran: the full success path including the
chart redraw, the else branch for a non-dict value, the JSONDecodeError
handler, or the generic except-Exception handler. -/
inductive ProcOutcome where
  | chartUpdated : ProcOutcome
  | notDict : ProcOutcome
  | invalidJson : ProcOutcome
  | errorLogged : ProcOutcome
deriving DecidableEq

/-- The body of the isinstance(message_dict, dict) branch of process_message:
author and season default to "unknown" when absent; then
season_counts[season][author] += 1 runs.  If season is unhashable the outer
subscript raises TypeError and nothing changes; if author is unhashable the
outer subscript has already vivified the season key when the inner subscript
raises; otherwise the increment lands and update_chart runs, whose exception
(if any) is swallowed by the except-Exception handler. -/
def handle_object (j : Json) (t : CountTable) : CountTable × ProcOutcome :=
  let author := jgetD j "author" (Json.str "unknown")
  let season := jgetD j "season" (Json.str "unknown")
  if season.hashable then
    if author.hashable then
      let t2 := increment t season author
      match update_chart t2 with
      | Except.ok _ => (t2, ProcOutcome.chartUpdated)
      | Except.error _ => (t2, ProcOutcome.errorLogged)
    else (vivify t season, ProcOutcome.errorLogged)
  else (t, ProcOutcome.errorLogged)

/-- process_message on the outcome of json.loads for one raw message: returns
the resulting season_counts and which branch ran. -/
def process_message (m : RawParse) (t : CountTable) : CountTable × ProcOutcome :=
  match m with
  | RawParse.decodeError => (t, ProcOutcome.invalidJson)
  | RawParse.value j =>
    if j.isObj then handle_object j t else (t, ProcOutcome.notDict)

/-- The season_counts table after a list of messages has been processed,
starting from a given table. -/
def runMessages (msgs : List RawParse) (t : CountTable) : CountTable :=
  msgs.foldl (fun acc m => (process_message m acc).1) t

/-- How the for-loop over the consumer ends: the iterator is exhausted, a
KeyboardInterrupt arrives at the blocking pull, or some other exception is
raised during iteration. -/
inductive LoopEnd where
  | exhausted : LoopEnd
  | interrupted : LoopEnd
  | failed : LoopEnd
deriving DecidableEq

/-- The externally visible events of main, in order: one per processed
message, the logging of the except branch that handled the loop end, and the
consumer.close() call. -/
inductive Event where
  | processed : RawParse → Event
  | warnInterrupted : Event
  | errorWhileConsuming : Event
  | closeSource : Event
deriving DecidableEq

/-- The events of the except branches: nothing on normal exhaustion, a
warning log on KeyboardInterrupt, an error log on any other exception. -/
def endEvents : LoopEnd → List Event
  | LoopEnd.exhausted => []
  | LoopEnd.interrupted => [Event.warnInterrupted]
  | LoopEnd.failed => [Event.errorWhileConsuming]

/-- The event trace of main: the try block processes the pulled messages and
ends one of the three ways, the matching except branch logs, and the finally
block closes the consumer on every path. -/
def mainEvents (msgs : List RawParse) (e : LoopEnd) : List Event :=
  (msgs.map Event.processed) ++ endEvents e ++ [Event.closeSource]

/-- All stored counts of the table are non-negative. -/
def storedNonNeg (t : CountTable) : Prop :=
  ∀ s inner, (s, inner) ∈ t → ∀ a c, (a, c) ∈ inner → 0 ≤ c

/-- Concrete payload: a JSON object with author Homer and season 1. -/
def payloadHomerS1 : Json :=
  Json.objCons "author" (Json.str "Homer")
    (Json.objCons "season" (Json.str "1") Json.objNil)

/-- Concrete payload missing the season field: an object with only an author
field. -/
def payloadOnlyAuthor : Json :=
  Json.objCons "author" (Json.str "Homer") Json.objNil

/-- Concrete payload missing the author field whose season value is a JSON
array, hence unhashable as a dict key. -/
def payloadArraySeason : Json :=
  Json.objCons "season" Json.arrNil Json.objNil

/-- Concrete payload whose author value is a JSON object, hence unhashable,
with season 5. -/
def payloadDictAuthor : Json :=
  Json.objCons "author" Json.objNil
    (Json.objCons "season" (Json.str "5") Json.objNil)

/-- Concrete table whose season keys are the strings 2, 10 and 1, inserted in
that order. -/
def tableSeasons2_10_1 : CountTable :=
  [(Json.str "2", [(Json.str "Homer", 1)]),
   (Json.str "10", [(Json.str "Bart", 2)]),
   (Json.str "1", [(Json.str "Lisa", 1)])]

/-- Concrete table with one season whose counts are Homer 3 and Bart 1. -/
def tableHomer3Bart1 : CountTable :=
  [(Json.str "1", [(Json.str "Homer", 3), (Json.str "Bart", 1)])]

/-- The Homer label drawn for tableHomer3Bart1. -/
def labelHomer : SegLabel :=
  ⟨"Homer", Json.str "1", 3, 4, "black"⟩

/- Lemmas about the table operations. -/

theorem innerGetD_bump_same (inner : Inner) (a : Json) :
    innerGetD (bump inner a) a = innerGetD inner a + 1 := by
  induction inner with
  | nil => simp [bump, innerGetD]
  | cons p rest ih =>
    obtain ⟨k, v⟩ := p
    by_cases hk : k = a
    · subst hk; simp [bump, innerGetD]
    · simp [bump, innerGetD, hk, ih]

theorem innerGetD_bump_ne (inner : Inner) (a b : Json) (h : b ≠ a) :
    innerGetD (bump inner a) b = innerGetD inner b := by
  have h2 : a ≠ b := fun hh => h hh.symm
  induction inner with
  | nil => simp [bump, innerGetD, h2]
  | cons p rest ih =>
    obtain ⟨k, v⟩ := p
    by_cases hk : k = a
    · subst hk
      simp [bump, innerGetD, h2]
    · simp [bump, innerGetD, hk, ih]

theorem tableGet_increment_same (t : CountTable) (s a : Json) :
    tableGet (increment t s a) s = bump (tableGet t s) a := by
  induction t with
  | nil => simp [increment, tableGet]
  | cons p rest ih =>
    obtain ⟨k, inner⟩ := p
    by_cases hk : k = s
    · subst hk; simp [increment, tableGet]
    · simp [increment, tableGet, hk, ih]

theorem tableGet_increment_ne (t : CountTable) (s a s2 : Json) (h : s2 ≠ s) :
    tableGet (increment t s a) s2 = tableGet t s2 := by
  have h2 : s ≠ s2 := fun hh => h hh.symm
  induction t with
  | nil => simp [increment, tableGet, h2]
  | cons p rest ih =>
    obtain ⟨k, inner⟩ := p
    by_cases hk : k = s
    · subst hk
      simp [increment, tableGet, h2]
    · by_cases hk2 : k = s2
      · subst hk2
        simp [increment, tableGet, hk]
      · simp [increment, tableGet, hk, hk2, ih]

theorem lookupCount_increment_same (t : CountTable) (s a : Json) :
    lookupCount (increment t s a) s a = lookupCount t s a + 1 := by
  unfold lookupCount
  rw [tableGet_increment_same, innerGetD_bump_same]

theorem lookupCount_increment_other (t : CountTable) (s a s2 a2 : Json)
    (h : ¬(s2 = s ∧ a2 = a)) :
    lookupCount (increment t s a) s2 a2 = lookupCount t s2 a2 := by
  unfold lookupCount
  by_cases hs : s2 = s
  · subst hs
    have ha : a2 ≠ a := fun hh => h ⟨rfl, hh⟩
    rw [tableGet_increment_same, innerGetD_bump_ne _ _ _ ha]
  · rw [tableGet_increment_ne _ _ _ _ hs]

theorem tableGet_vivify (t : CountTable) (s s2 : Json) :
    tableGet (vivify t s) s2 = tableGet t s2 := by
  induction t with
  | nil =>
    by_cases hs : s = s2 <;> simp [vivify, tableGet, hs]
  | cons p rest ih =>
    obtain ⟨k, inner⟩ := p
    by_cases hk : k = s
    · subst hk; simp [vivify, tableGet]
    · by_cases hk2 : k = s2
      · subst hk2
        simp [vivify, tableGet, hk]
      · simp [vivify, tableGet, hk, hk2, ih]

theorem lookupCount_vivify (t : CountTable) (s s2 a2 : Json) :
    lookupCount (vivify t s) s2 a2 = lookupCount t s2 a2 := by
  unfold lookupCount
  rw [tableGet_vivify]

theorem lookupCount_absent_season (t : CountTable) (s a : Json)
    (h : s ∉ chartKeys t) :
    lookupCount t s a = 0 := by
  induction t with
  | nil => rfl
  | cons p rest ih =>
    obtain ⟨k, inner⟩ := p
    have hk : k ≠ s := by
      intro hh
      exact h (by simp [chartKeys, hh])
    have hrest : s ∉ chartKeys rest := by
      intro hh
      exact h (by simp [chartKeys] at hh ⊢; exact Or.inr hh)
    simpa [lookupCount, tableGet, hk] using ih hrest

theorem innerGetD_absent (inner : Inner) (a : Json)
    (h : a ∉ inner.map (fun p => p.1)) :
    innerGetD inner a = 0 := by
  induction inner with
  | nil => rfl
  | cons p rest ih =>
    obtain ⟨k, v⟩ := p
    have hk : k ≠ a := by
      intro hh
      exact h (by simp [hh])
    have hrest : a ∉ rest.map (fun p => p.1) := by
      intro hh
      exact h (by simp at hh ⊢; exact Or.inr hh)
    simpa [innerGetD, hk] using ih hrest

theorem mem_chartKeys_increment (t : CountTable) (s a : Json) :
    s ∈ chartKeys (increment t s a) := by
  induction t with
  | nil => simp [increment, chartKeys]
  | cons p rest ih =>
    obtain ⟨k, inner⟩ := p
    by_cases hk : k = s
    · subst hk; simp [increment, chartKeys]
    · simp [increment, chartKeys, hk]
      exact Or.inr (by simpa [chartKeys] using ih)

/- Lemmas about the decoder and the branch structure of process_message. -/

theorem isObj_of_jget_some (j : Json) (key : String) (v : Json)
    (h : jget j key = some v) : j.isObj = true := by
  cases j
  case objCons k w rest => rfl
  all_goals simp [jget] at h

theorem process_message_obj (j : Json) (t : CountTable) (hobj : j.isObj = true) :
    process_message (RawParse.value j) t = handle_object j t := by
  simp [process_message, hobj]

theorem process_message_not_obj (j : Json) (t : CountTable)
    (hobj : j.isObj = false) :
    process_message (RawParse.value j) t = (t, ProcOutcome.notDict) := by
  simp [process_message, hobj]

theorem handle_object_incr (j : Json) (t : CountTable)
    (hs : (jgetD j "season" (Json.str "unknown")).hashable = true)
    (ha : (jgetD j "author" (Json.str "unknown")).hashable = true) :
    (handle_object j t).1
      = increment t (jgetD j "season" (Json.str "unknown"))
          (jgetD j "author" (Json.str "unknown")) := by
  unfold handle_object
  simp only [hs, ha, if_true]
  cases update_chart
      (increment t (jgetD j "season" (Json.str "unknown"))
        (jgetD j "author" (Json.str "unknown"))) <;> rfl

theorem handle_object_chart_error (j : Json) (t : CountTable)
    (hs : (jgetD j "season" (Json.str "unknown")).hashable = true)
    (ha : (jgetD j "author" (Json.str "unknown")).hashable = true)
    (herr : update_chart
        (increment t (jgetD j "season" (Json.str "unknown"))
          (jgetD j "author" (Json.str "unknown"))) = Except.error ()) :
    handle_object j t
      = (increment t (jgetD j "season" (Json.str "unknown"))
          (jgetD j "author" (Json.str "unknown")), ProcOutcome.errorLogged) := by
  unfold handle_object
  simp only [hs, ha, if_true, herr]

theorem handle_object_fst_cases (j : Json) (t : CountTable) :
    (handle_object j t).1 = t
    ∨ (handle_object j t).1 = vivify t (jgetD j "season" (Json.str "unknown"))
    ∨ (handle_object j t).1
        = increment t (jgetD j "season" (Json.str "unknown"))
            (jgetD j "author" (Json.str "unknown")) := by
  by_cases hs : (jgetD j "season" (Json.str "unknown")).hashable = true
  · by_cases ha : (jgetD j "author" (Json.str "unknown")).hashable = true
    · exact Or.inr (Or.inr (handle_object_incr j t hs ha))
    · refine Or.inr (Or.inl ?_)
      unfold handle_object
      simp [hs, ha]
  · left
    unfold handle_object
    simp [hs]

/- Lemmas about update_chart. -/

theorem update_chart_ok_elim (t : CountTable) (out : RenderOutput)
    (h : update_chart t = Except.ok out) : out = renderFrom t := by
  unfold update_chart at h
  split at h
  · exact (Except.ok.inj h).symm
  · exact Except.noConfusion h

theorem update_chart_error_of_bad_key (t : CountTable) (k : Json)
    (hk : k ∈ chartKeys t) (hbad : pyIntOfKey k = none) :
    update_chart t = Except.error () := by
  have hc : ¬((chartKeys t).all (fun x => (pyIntOfKey x).isSome) = true) := by
    intro hall
    have h2 := List.all_eq_true.mp hall k hk
    rw [hbad] at h2
    simp at h2
  unfold update_chart
  rw [if_neg hc]

theorem seasonSorted_perm (keys : List Json) : (seasonSorted keys).Perm keys :=
  List.perm_insertionSort _ keys

theorem seasonSorted_pairwise (keys : List Json) :
    (seasonSorted keys).Pairwise (fun a b => intKey a ≤ intKey b) := by
  haveI h1 : IsTotal Json (fun a b => intKey a ≤ intKey b) :=
    ⟨fun a b => le_total (intKey a) (intKey b)⟩
  haveI h2 : IsTrans Json (fun a b => intKey a ≤ intKey b) :=
    ⟨fun a b c hab hbc => le_trans hab hbc⟩
  exact List.sorted_insertionSort _ keys

theorem drawBars_authors (t : CountTable) (seasons : List Json) :
    ∀ (lst : List (String × String)) (bottoms : List Int),
      (drawBars t seasons lst bottoms).1.map (fun b => b.author)
        = lst.map (fun p => p.1) := by
  intro lst
  induction lst with
  | nil => intro bottoms; rfl
  | cons p rest ih =>
    intro bottoms
    obtain ⟨author, color⟩ := p
    simp [drawBars, ih]

theorem authorLabels_mem (t : CountTable) (author : String) (seasons : List Json)
    (l : SegLabel) (h : l ∈ authorLabels t author seasons) :
    l.author = author ∧ l.season ∈ seasons
    ∧ l.count = innerGetD (tableGet t l.season) (Json.str author)
    ∧ l.total = seasonTotal t l.season ∧ 0 < l.count := by
  unfold authorLabels at h
  obtain ⟨s, hs, heq⟩ := List.mem_filterMap.mp h
  by_cases hc : 0 < innerGetD (tableGet t s) (Json.str author)
  · rw [if_pos hc] at heq
    injection heq with heq2
    subst heq2
    exact ⟨rfl, hs, rfl, rfl, hc⟩
  · rw [if_neg hc] at heq
    exact Option.noConfusion heq

theorem drawBars_labels_mem (t : CountTable) (seasons : List Json) :
    ∀ (lst : List (String × String)) (bottoms : List Int) (l : SegLabel),
      l ∈ (drawBars t seasons lst bottoms).2 →
        l.author ∈ lst.map (fun p => p.1) ∧ l.season ∈ seasons
        ∧ l.count = innerGetD (tableGet t l.season) (Json.str l.author)
        ∧ l.total = seasonTotal t l.season ∧ 0 < l.count := by
  intro lst
  induction lst with
  | nil => intro bottoms l h; exact absurd h (by simp [drawBars])
  | cons p rest ih =>
    intro bottoms l h
    obtain ⟨author, color⟩ := p
    rw [show (drawBars t seasons ((author, color) :: rest) bottoms).2
        = authorLabels t author seasons
          ++ (drawBars t seasons rest
              ((bottoms.zip (seasons.map (fun s =>
                innerGetD (tableGet t s) (Json.str author)))).map
                (fun q => q.1 + q.2))).2 from rfl] at h
    rcases List.mem_append.mp h with h1 | h1
    · obtain ⟨ha, hsm, hc, ht, hpos⟩ := authorLabels_mem t author seasons l h1
      exact ⟨by simp [ha], hsm, by rw [ha]; exact hc, ht, hpos⟩
    · obtain ⟨ha, hsm, hc, ht, hpos⟩ := ih _ l h1
      exact ⟨by simp; exact Or.inr (by simpa using ha), hsm, hc, ht, hpos⟩

/- Preservation of the non-negativity invariant. -/

theorem bump_nonneg (inner : Inner) (a : Json)
    (h : ∀ k c, (k, c) ∈ inner → 0 ≤ c) :
    ∀ k c, (k, c) ∈ bump inner a → 0 ≤ c := by
  induction inner with
  | nil =>
    intro k c hm
    simp [bump] at hm
    rw [hm.2]
    norm_num
  | cons p rest ih =>
    obtain ⟨k0, v0⟩ := p
    intro k c hm
    by_cases hk : k0 = a
    · subst hk
      rw [show bump ((k0, v0) :: rest) k0 = (k0, v0 + 1) :: rest from by
          simp [bump]] at hm
      rcases List.mem_cons.mp hm with h1 | h1
      · have hv0 : 0 ≤ v0 := h k0 v0 (List.mem_cons_self _ _)
        have : c = v0 + 1 := (Prod.mk.injEq _ _ _ _ ▸ h1).2
        rw [this]
        linarith
      · exact h k c (List.mem_cons_of_mem _ h1)
    · rw [show bump ((k0, v0) :: rest) a = (k0, v0) :: bump rest a from by
          simp [bump, hk]] at hm
      rcases List.mem_cons.mp hm with h1 | h1
      · have : c = v0 := (Prod.mk.injEq _ _ _ _ ▸ h1).2
        rw [this]
        exact h k0 v0 (List.mem_cons_self _ _)
      · exact ih (fun k2 c2 hm2 => h k2 c2 (List.mem_cons_of_mem _ hm2)) k c h1

theorem storedNonNeg_increment (t : CountTable) (s a : Json)
    (h : storedNonNeg t) : storedNonNeg (increment t s a) := by
  induction t with
  | nil =>
    intro s2 inner2 hm a2 c2 hm2
    simp [increment] at hm
    rw [hm.2] at hm2
    exact bump_nonneg [] a (by intro k c hc; simp at hc) a2 c2 hm2
  | cons p rest ih =>
    obtain ⟨k, inner⟩ := p
    intro s2 inner2 hm a2 c2 hm2
    by_cases hk : k = s
    · subst hk
      rw [show increment ((k, inner) :: rest) k a = (k, bump inner a) :: rest from by
          simp [increment]] at hm
      rcases List.mem_cons.mp hm with h1 | h1
      · have hin : inner2 = bump inner a := (Prod.mk.injEq _ _ _ _ ▸ h1).2
        rw [hin] at hm2
        exact bump_nonneg inner a
          (fun k2 c3 hm3 => h k inner (List.mem_cons_self _ _) k2 c3 hm3) a2 c2 hm2
      · exact h s2 inner2 (List.mem_cons_of_mem _ h1) a2 c2 hm2
    · rw [show increment ((k, inner) :: rest) s a = (k, inner) :: increment rest s a from by
          simp [increment, hk]] at hm
      rcases List.mem_cons.mp hm with h1 | h1
      · have hin : inner2 = inner := (Prod.mk.injEq _ _ _ _ ▸ h1).2
        rw [hin] at hm2
        exact h k inner (List.mem_cons_self _ _) a2 c2 hm2
      · exact ih (fun s3 i3 hm3 => h s3 i3 (List.mem_cons_of_mem _ hm3)) s2 inner2 h1 a2 c2 hm2

theorem storedNonNeg_vivify (t : CountTable) (s : Json)
    (h : storedNonNeg t) : storedNonNeg (vivify t s) := by
  induction t with
  | nil =>
    intro s2 inner2 hm a2 c2 hm2
    simp [vivify] at hm
    rw [hm.2] at hm2
    exact absurd hm2 (by simp)
  | cons p rest ih =>
    obtain ⟨k, inner⟩ := p
    intro s2 inner2 hm a2 c2 hm2
    by_cases hk : k = s
    · subst hk
      rw [show vivify ((k, inner) :: rest) k = (k, inner) :: rest from by
          simp [vivify]] at hm
      exact h s2 inner2 hm a2 c2 hm2
    · rw [show vivify ((k, inner) :: rest) s = (k, inner) :: vivify rest s from by
          simp [vivify, hk]] at hm
      rcases List.mem_cons.mp hm with h1 | h1
      · have hin : inner2 = inner := (Prod.mk.injEq _ _ _ _ ▸ h1).2
        rw [hin] at hm2
        exact h k inner (List.mem_cons_self _ _) a2 c2 hm2
      · exact ih (fun s3 i3 hm3 => h s3 i3 (List.mem_cons_of_mem _ hm3)) s2 inner2 h1 a2 c2 hm2

theorem storedNonNeg_process (m : RawParse) (t : CountTable)
    (h : storedNonNeg t) : storedNonNeg (process_message m t).1 := by
  cases m with
  | decodeError => exact h
  | value j =>
    by_cases hobj : j.isObj = true
    · rw [process_message_obj j t hobj]
      rcases handle_object_fst_cases j t with hc | hc | hc <;> rw [hc]
      · exact h
      · exact storedNonNeg_vivify _ _ h
      · exact storedNonNeg_increment _ _ _ h
    · rw [process_message_not_obj j t (by simpa using hobj)]
      exact h

theorem storedNonNeg_runMessages (msgs : List RawParse) :
    ∀ t : CountTable, storedNonNeg t → storedNonNeg (runMessages msgs t) := by
  induction msgs with
  | nil => intro t h; exact h
  | cons m rest ih =>
    intro t h
    exact ih _ (storedNonNeg_process m t h)

theorem process_lookup_cases (m : RawParse) (t : CountTable) :
    (∀ p q : Json, lookupCount (process_message m t).1 p q = lookupCount t p q)
    ∨ ∃ s a : Json,
        lookupCount (process_message m t).1 s a = lookupCount t s a + 1
        ∧ ∀ p q : Json, ¬(p = s ∧ q = a) →
            lookupCount (process_message m t).1 p q = lookupCount t p q := by
  cases m with
  | decodeError => exact Or.inl (fun p q => rfl)
  | value j =>
    by_cases hobj : j.isObj = true
    · rw [process_message_obj j t hobj]
      rcases handle_object_fst_cases j t with hc | hc | hc <;> rw [hc]
      · exact Or.inl (fun p q => rfl)
      · exact Or.inl (fun p q => lookupCount_vivify t _ p q)
      · refine Or.inr ⟨jgetD j "season" (Json.str "unknown"),
          jgetD j "author" (Json.str "unknown"),
          lookupCount_increment_same t _ _, fun p q hpq =>
            lookupCount_increment_other t _ _ p q hpq⟩
    · rw [process_message_not_obj j t (by simpa using hobj)]
      exact Or.inl (fun p q => rfl)

/- The claims. -/

/-- C1: processing a message that parses as a JSON object with string author
field A and string season field S increments season_counts at (S, A) by
exactly one and leaves every other (season, author) entry unchanged. -/
theorem claim1_valid_payload_increments (j : Json) (A S : String) (t : CountTable)
    (hA : jget j "author" = some (Json.str A))
    (hS : jget j "season" = some (Json.str S)) :
    lookupCount (process_message (RawParse.value j) t).1 (Json.str S) (Json.str A)
      = lookupCount t (Json.str S) (Json.str A) + 1
    ∧ ∀ s a : Json, ¬(s = Json.str S ∧ a = Json.str A) →
        lookupCount (process_message (RawParse.value j) t).1 s a
          = lookupCount t s a := by
  have hobj := isObj_of_jget_some j "author" _ hA
  have hgA : jgetD j "author" (Json.str "unknown") = Json.str A := by
    simp [jgetD, hA]
  have hgS : jgetD j "season" (Json.str "unknown") = Json.str S := by
    simp [jgetD, hS]
  have hfst : (process_message (RawParse.value j) t).1
      = increment t (Json.str S) (Json.str A) := by
    rw [process_message_obj j t hobj,
      handle_object_incr j t (by rw [hgS]; rfl) (by rw [hgA]; rfl), hgA, hgS]
  constructor
  · rw [hfst]; exact lookupCount_increment_same t _ _
  · intro s a hsa
    rw [hfst]; exact lookupCount_increment_other t _ _ s a hsa

/-- C1 witness: the Homer season 1 payload takes the empty table to count one
at (1, Homer) and leaves the entry (2, Bart) at zero. -/
theorem claim1_witness :
    lookupCount (process_message (RawParse.value payloadHomerS1) []).1
        (Json.str "1") (Json.str "Homer")
      = lookupCount [] (Json.str "1") (Json.str "Homer") + 1
    ∧ lookupCount (process_message (RawParse.value payloadHomerS1) []).1
        (Json.str "2") (Json.str "Bart")
      = lookupCount [] (Json.str "2") (Json.str "Bart") :=
  ⟨(claim1_valid_payload_increments payloadHomerS1 "Homer" "1" [] rfl rfl).1,
   (claim1_valid_payload_increments payloadHomerS1 "Homer" "1" [] rfl rfl).2
     (Json.str "2") (Json.str "Bart") (by decide)⟩

/-- C2 counterexample: the payload missing the author field whose season
value is a JSON array parses as an object, yet no increment is applied: the
table is left empty and the generic error branch runs, because the array is
unhashable and season_counts raises TypeError.  This refutes the claim that
every object payload missing a field is still counted. -/
theorem claim2_counterexample :
    jget payloadArraySeason "author" = none
    ∧ payloadArraySeason.isObj = true
    ∧ process_message (RawParse.value payloadArraySeason) []
        = ([], ProcOutcome.errorLogged)
    ∧ lookupCount (process_message (RawParse.value payloadArraySeason) []).1
        Json.arrNil (Json.str "unknown") = 0 := by decide

/-- C2 amended: for every payload that parses as a JSON object missing the
author field or the season field (or both), provided the fields that are
present hold hashable values, each missing field defaults to the string
unknown and the increment is still applied. -/
theorem claim2_missing_field_defaults (j : Json) (t : CountTable)
    (_hmiss : jget j "author" = none ∨ jget j "season" = none)
    (hobj : j.isObj = true)
    (hsh : (jgetD j "season" (Json.str "unknown")).hashable = true)
    (hah : (jgetD j "author" (Json.str "unknown")).hashable = true) :
    (jget j "author" = none →
      jgetD j "author" (Json.str "unknown") = Json.str "unknown")
    ∧ (jget j "season" = none →
      jgetD j "season" (Json.str "unknown") = Json.str "unknown")
    ∧ (process_message (RawParse.value j) t).1
        = increment t (jgetD j "season" (Json.str "unknown"))
            (jgetD j "author" (Json.str "unknown"))
    ∧ lookupCount (process_message (RawParse.value j) t).1
        (jgetD j "season" (Json.str "unknown"))
        (jgetD j "author" (Json.str "unknown"))
      = lookupCount t (jgetD j "season" (Json.str "unknown"))
          (jgetD j "author" (Json.str "unknown")) + 1 := by
  have hfst : (process_message (RawParse.value j) t).1
      = increment t (jgetD j "season" (Json.str "unknown"))
          (jgetD j "author" (Json.str "unknown")) := by
    rw [process_message_obj j t hobj]
    exact handle_object_incr j t hsh hah
  refine ⟨?_, ?_, hfst, ?_⟩
  · intro hn; simp [jgetD, hn]
  · intro hn; simp [jgetD, hn]
  · rw [hfst]; exact lookupCount_increment_same t _ _

/-- C2 witness: the payload with only an author field defaults its season to
unknown and the increment is applied. -/
theorem claim2_witness :
    (jget payloadOnlyAuthor "season" = none →
      jgetD payloadOnlyAuthor "season" (Json.str "unknown") = Json.str "unknown")
    ∧ lookupCount (process_message (RawParse.value payloadOnlyAuthor) []).1
        (jgetD payloadOnlyAuthor "season" (Json.str "unknown"))
        (jgetD payloadOnlyAuthor "author" (Json.str "unknown"))
      = lookupCount []
          (jgetD payloadOnlyAuthor "season" (Json.str "unknown"))
          (jgetD payloadOnlyAuthor "author" (Json.str "unknown")) + 1 :=
  ⟨(claim2_missing_field_defaults payloadOnlyAuthor [] (Or.inr rfl) rfl rfl rfl).2.1,
   (claim2_missing_field_defaults payloadOnlyAuthor [] (Or.inr rfl) rfl rfl rfl).2.2.2⟩

/-- C3: when json.loads fails, process_message runs the JSONDecodeError
branch and returns season_counts exactly as it was. -/
theorem claim3_invalid_json_unchanged (t : CountTable) :
    process_message RawParse.decodeError t = (t, ProcOutcome.invalidJson) := rfl

/-- C4: when the parsed value is not an object, process_message runs the
else branch of the isinstance check and season_counts is left unchanged. -/
theorem claim4_non_object_unchanged (j : Json) (t : CountTable)
    (h : j.isObj = false) :
    process_message (RawParse.value j) t = (t, ProcOutcome.notDict) :=
  process_message_not_obj j t h

/-- C4 witness: a top-level array and a top-level number both take the
non-dict branch and leave the empty table empty. -/
theorem claim4_witness :
    Json.isObj Json.arrNil = false
    ∧ process_message (RawParse.value Json.arrNil) [] = ([], ProcOutcome.notDict)
    ∧ Json.isObj (Json.num 3) = false
    ∧ process_message (RawParse.value (Json.num 3)) [] = ([], ProcOutcome.notDict) :=
  ⟨rfl, claim4_non_object_unchanged Json.arrNil [] rfl, rfl,
   claim4_non_object_unchanged (Json.num 3) [] rfl⟩

/-- C5: whenever update_chart succeeds, the rendered season axis is a
permutation of the table keys ordered ascending in the integer reading of the
key; in particular the keys 2, 10, 1 are rendered in the order 1, 2, 10
rather than lexicographically. -/
theorem claim5_seasons_numeric_order (t : CountTable) (out : RenderOutput)
    (h : update_chart t = Except.ok out) :
    out.sorted_seasons.Perm (chartKeys t)
    ∧ out.sorted_seasons.Pairwise (fun a b => intKey a ≤ intKey b)
    ∧ seasonSorted [Json.str "2", Json.str "10", Json.str "1"]
        = [Json.str "1", Json.str "2", Json.str "10"] := by
  have hout := update_chart_ok_elim t out h
  subst hout
  exact ⟨seasonSorted_perm (chartKeys t), seasonSorted_pairwise (chartKeys t),
    by decide⟩

/-- C5 witness: on the table with keys 2, 10, 1 the chart renders and its
axis is the sorted permutation of the keys. -/
theorem claim5_witness :
    (renderFrom tableSeasons2_10_1).sorted_seasons.Perm (chartKeys tableSeasons2_10_1)
    ∧ (renderFrom tableSeasons2_10_1).sorted_seasons.Pairwise
        (fun a b => intKey a ≤ intKey b)
    ∧ seasonSorted [Json.str "2", Json.str "10", Json.str "1"]
        = [Json.str "1", Json.str "2", Json.str "10"] :=
  claim5_seasons_numeric_order tableSeasons2_10_1 (renderFrom tableSeasons2_10_1) rfl

/-- C6: every percentage label is drawn for a positive count, divides by the
total of its own season, and equals 100 times count over total; on the table
with counts Homer 3 and Bart 1 the two labels are 75 and 25 percent, which the
one-decimal format prints as 75.0 and 25.0 (expressed in tenths). -/
theorem claim6_percentage_labels (t : CountTable) (out : RenderOutput)
    (h : update_chart t = Except.ok out) :
    (∀ l ∈ out.labels, 0 < l.count ∧ l.total = seasonTotal t l.season
      ∧ l.percent = 100 * (l.count : ℚ) / (l.total : ℚ))
    ∧ (renderFrom tableHomer3Bart1).labels.map (fun l => (l.author, l.percent))
        = [("Homer", (75 : ℚ)), ("Bart", (25 : ℚ))]
    ∧ formatTenths 75 = 750 ∧ formatTenths 25 = 250 := by
  have hout := update_chart_ok_elim t out h
  subst hout
  refine ⟨?_, ?_, by norm_num [formatTenths], by norm_num [formatTenths]⟩
  · intro l hl
    obtain ⟨_, _, _, ht, hpos⟩ := drawBars_labels_mem t (seasonSorted (chartKeys t))
      author_colors (List.replicate (seasonSorted (chartKeys t)).length 0) l hl
    exact ⟨hpos, ht, by rw [SegLabel.percent]; ring⟩
  · rw [show (renderFrom tableHomer3Bart1).labels
        = [⟨"Homer", Json.str "1", 3, 4, "black"⟩,
           ⟨"Bart", Json.str "1", 1, 4, "white"⟩] from by decide]
    norm_num [SegLabel.percent]

/-- C6 witness: the chart on the Homer 3, Bart 1 table renders, its label
values are 75 and 25 percent, and the Homer label satisfies the percentage
formula with a positive count. -/
theorem claim6_witness :
    ((renderFrom tableHomer3Bart1).labels.map (fun l => (l.author, l.percent))
        = [("Homer", (75 : ℚ)), ("Bart", (25 : ℚ))])
    ∧ (0 < labelHomer.count
        ∧ labelHomer.total = seasonTotal tableHomer3Bart1 labelHomer.season
        ∧ labelHomer.percent = 100 * (labelHomer.count : ℚ) / (labelHomer.total : ℚ)) :=
  ⟨(claim6_percentage_labels tableHomer3Bart1 (renderFrom tableHomer3Bart1) rfl).2.1,
   (claim6_percentage_labels tableHomer3Bart1 (renderFrom tableHomer3Bart1) rfl).1
     labelHomer (by decide)⟩

/-- C7: whatever way the consumption loop ends, the event trace of main
contains exactly one consumer close event, emitted by the finally block. -/
theorem claim7_close_called_once (msgs : List RawParse) (e : LoopEnd) :
    (mainEvents msgs e).count Event.closeSource = 1 := by
  unfold mainEvents
  rw [List.count_append, List.count_append]
  have h1 : (msgs.map Event.processed).count Event.closeSource = 0 := by
    rw [List.count_eq_zero]
    intro hmem
    obtain ⟨m, _, hm⟩ := List.mem_map.mp hmem
    exact Event.noConfusion hm
  have h2 : (endEvents e).count Event.closeSource = 0 := by
    cases e <;> rfl
  rw [h1, h2]
  rfl

/-- C8 counterexample: the payload whose author value is a JSON object and
whose season is 5 mutates season_counts without performing any increment: the
season key 5 is inserted with an empty inner dict by the defaultdict access
before the inner subscript raises TypeError, so the table changes although
every stored count total stays zero.  This refutes the part of the claim that
season_counts is mutated only by the single increment of a successfully
processed message. -/
theorem claim8_counterexample :
    (process_message (RawParse.value payloadDictAuthor) []).1 = [(Json.str "5", [])]
    ∧ ([(Json.str "5", [])] : CountTable) ≠ ([] : CountTable)
    ∧ innerTotal (tableGet [(Json.str "5", [])] (Json.str "5")) = 0
    ∧ lookupCount [(Json.str "5", [])] (Json.str "5") (Json.str "unknown") = 0 := by
  decide

/-- C8 amended: every count stored in any table reachable from the empty one
is non-negative; an absent season key or absent author key reads as zero; and
each processed message either leaves every stored count unchanged (it may at
most insert an empty season entry) or increments exactly one (season, author)
count by one, leaving all others unchanged.  Rendering is modelled as a pure
read and cannot change the table. -/
theorem claim8_count_invariants (msgs : List RawParse) (t : CountTable)
    (s a : Json) (m : RawParse) :
    storedNonNeg (runMessages msgs [])
    ∧ (s ∉ chartKeys t → lookupCount t s a = 0)
    ∧ (a ∉ (tableGet t s).map (fun p => p.1) → lookupCount t s a = 0)
    ∧ ((∀ p q : Json, lookupCount (process_message m t).1 p q = lookupCount t p q)
       ∨ ∃ s2 a2 : Json,
           lookupCount (process_message m t).1 s2 a2 = lookupCount t s2 a2 + 1
           ∧ ∀ p q : Json, ¬(p = s2 ∧ q = a2) →
               lookupCount (process_message m t).1 p q = lookupCount t p q) :=
  ⟨storedNonNeg_runMessages msgs []
      (fun _ _ h2 => absurd h2 (List.not_mem_nil _)),
   lookupCount_absent_season t s a,
   innerGetD_absent (tableGet t s) a,
   process_lookup_cases m t⟩

/-- C8 witness: the table reached by processing the Homer season 1 payload
has only non-negative counts, and an absent season of the empty table reads
as zero. -/
theorem claim8_witness :
    storedNonNeg (runMessages [RawParse.value payloadHomerS1] [])
    ∧ lookupCount [] (Json.str "9") (Json.str "X") = 0 :=
  ⟨(claim8_count_invariants [RawParse.value payloadHomerS1] []
      (Json.str "9") (Json.str "X") RawParse.decodeError).1,
   (claim8_count_invariants [RawParse.value payloadHomerS1] []
      (Json.str "9") (Json.str "X") RawParse.decodeError).2.1 (by decide)⟩

/-- C9: whenever update_chart succeeds, the bar series are exactly the
authors of the color mapping in its order, every label belongs to a mapped
author, an author outside the mapping is never drawn as a bar or label, and
the increment operation still records counts for any author value. -/
theorem claim9_only_mapped_authors (t : CountTable) (out : RenderOutput)
    (h : update_chart t = Except.ok out) :
    out.bars.map (fun b => b.author) = author_colors.map (fun p => p.1)
    ∧ (∀ l ∈ out.labels, l.author ∈ author_colors.map (fun p => p.1))
    ∧ (∀ a : String, a ∉ author_colors.map (fun p => p.1) →
        (∀ b ∈ out.bars, b.author ≠ a) ∧ (∀ l ∈ out.labels, l.author ≠ a))
    ∧ ∀ (t2 : CountTable) (s au : Json),
        lookupCount (increment t2 s au) s au = lookupCount t2 s au + 1 := by
  have hout := update_chart_ok_elim t out h
  subst hout
  have hbars : (renderFrom t).bars.map (fun b => b.author)
      = author_colors.map (fun p => p.1) :=
    drawBars_authors t (seasonSorted (chartKeys t)) author_colors
      (List.replicate (seasonSorted (chartKeys t)).length 0)
  have hlab : ∀ l ∈ (renderFrom t).labels,
      l.author ∈ author_colors.map (fun p => p.1) :=
    fun l hl => (drawBars_labels_mem t (seasonSorted (chartKeys t)) author_colors
      (List.replicate (seasonSorted (chartKeys t)).length 0) l hl).1
  refine ⟨hbars, hlab, ?_, fun t2 s au => lookupCount_increment_same t2 s au⟩
  intro a ha
  constructor
  · intro b hb hba
    have hmem : b.author ∈ (renderFrom t).bars.map (fun b2 => b2.author) :=
      List.mem_map_of_mem _ hb
    rw [hbars] at hmem
    exact ha (hba ▸ hmem)
  · intro l hl hla
    exact ha (hla ▸ hlab l hl)

/-- C9 witness: on the Homer 3, Bart 1 table the bars are exactly the five
mapped authors in order, and incrementing the unmapped author Ned still
records a count. -/
theorem claim9_witness :
    (renderFrom tableHomer3Bart1).bars.map (fun b => b.author)
      = author_colors.map (fun p => p.1)
    ∧ lookupCount (increment [] (Json.str "1") (Json.str "Ned"))
        (Json.str "1") (Json.str "Ned")
      = lookupCount [] (Json.str "1") (Json.str "Ned") + 1 :=
  ⟨(claim9_only_mapped_authors tableHomer3Bart1 (renderFrom tableHomer3Bart1) rfl).1,
   (claim9_only_mapped_authors tableHomer3Bart1 (renderFrom tableHomer3Bart1) rfl).2.2.2
     [] (Json.str "1") (Json.str "Ned")⟩

/-- C10: when the decoded season key S is hashable but not readable as an
integer (for instance the default string unknown) and the author key A is
hashable, the increment lands, the subsequent update_chart fails at the
numeric sort, and process_message swallows that exception: the returned table
is the incremented one with the generic error branch reported, so the chart
is not redrawn for that message. -/
theorem claim10_bad_key_render_error (j : Json) (t : CountTable) (S A : Json)
    (hS : jgetD j "season" (Json.str "unknown") = S)
    (hA : jgetD j "author" (Json.str "unknown") = A)
    (hobj : j.isObj = true)
    (hsh : S.hashable = true) (hah : A.hashable = true)
    (hbad : pyIntOfKey S = none) :
    update_chart (increment t S A) = Except.error ()
    ∧ process_message (RawParse.value j) t
        = (increment t S A, ProcOutcome.errorLogged)
    ∧ lookupCount (increment t S A) S A = lookupCount t S A + 1 := by
  subst hS
  subst hA
  have herr := update_chart_error_of_bad_key
    (increment t (jgetD j "season" (Json.str "unknown"))
      (jgetD j "author" (Json.str "unknown")))
    (jgetD j "season" (Json.str "unknown"))
    (mem_chartKeys_increment t _ _) hbad
  refine ⟨herr, ?_, lookupCount_increment_same t _ _⟩
  rw [process_message_obj j t hobj]
  exact handle_object_chart_error j t hsh hah herr

/-- C10 witness: the payload with only an author field defaults its season to
the string unknown; the increment survives while the chart redraw fails. -/
theorem claim10_witness :
    update_chart (increment [] (Json.str "unknown") (Json.str "Homer"))
      = Except.error ()
    ∧ process_message (RawParse.value payloadOnlyAuthor) []
        = (increment [] (Json.str "unknown") (Json.str "Homer"),
           ProcOutcome.errorLogged)
    ∧ lookupCount (increment [] (Json.str "unknown") (Json.str "Homer"))
        (Json.str "unknown") (Json.str "Homer")
      = lookupCount [] (Json.str "unknown") (Json.str "Homer") + 1 :=
  claim10_bad_key_render_error payloadOnlyAuthor [] (Json.str "unknown")
    (Json.str "Homer") rfl rfl rfl rfl rfl (by decide)

end Buzzline
